import Mathlib

/-!
Verification of the publishing scripts `hugging_corenlp.py` and
`hugging_stanza.py` from `stanfordnlp/huggingface-models`.

The Python scripts are shallowly embedded: pure helpers become Lean
functions on `String`/`List String`; the remote repository (its
`.gitattributes` file, commit count, tags and head commit) becomes an
explicit state record; filesystem existence is a parameter
`fs : String → Bool`; exceptions become `Except`.
-/

namespace HFModels

/-- Python renders the value `None` as the string `"None"` when it is
spliced into a format string; an absent optional string is `none`. -/
def pyStr : Option String → String
  | some s => s
  | none => "None"

/-- Python `dict.get(k, d)`: the stored value when the key is present,
otherwise the default `d`. -/
def pyGetD (m : String → Option String) (k d : String) : String :=
  match m k with
  | some v => v
  | none => d

/-- Python truthiness of an optional string: `None` and `""` are falsy. -/
def pyTruthy : Option String → Bool
  | some s => !(s == "")
  | none => false

/-- Python `s.split("-")[0]`: the characters of `s` before its first `'-'`
(all of `s` when no dash occurs). -/
def splitDashHead (s : String) : String :=
  ⟨s.data.takeWhile (fun c => c != '-')⟩

/-- Python `s.startswith(p)` on the character data. -/
def strStartsWith (s p : String) : Bool :=
  List.isPrefixOf p.data s.data

namespace Corenlp

/-- The fixed prose of the CoreNLP card template between the `{model}`
and `{now}` format fields (lines 29-34 of `hugging_corenlp.py`). -/
def corenlpProse : String :=
  "\nCoreNLP is your one stop shop for natural language processing in Java! CoreNLP enables users to derive linguistic annotations for text, including token and sentence boundaries, parts of speech, named entities, numeric and time values, dependency and constituency parses, coreference, sentiment, quote attributions, and relations.\nFind more about it in [our website](https://stanfordnlp.github.io/CoreNLP) and our [GitHub repository](https://github.com/stanfordnlp/CoreNLP).\n\nThis card and repo were automatically prepared with `hugging_corenlp.py` in the `stanfordnlp/huggingface-models` repo\n\n"

/-- The CoreNLP card template up to (excluding) the trailing
`Last updated {now}` line, with the `{lang}` and `{model}` fields
spliced in. -/
def card_body (lang : Option String) (model : String) : String :=
  "---\ntags:\n- corenlp\nlibrary_tag: corenlp\nlanguage: " ++ pyStr lang ++
  "\nlicense: gpl-2.0\n---\n" ++ "# Core NLP model for " ++ model ++ corenlpProse

/-- Embedding of `get_model_card(lang, model)` from `hugging_corenlp.py`
(lines 19-36).  The template string is written as the concatenation of its
literal pieces with the three format fields spliced in; the timestamp
`now` is a parameter standing for the `datetime.utcnow()` reading. -/
def get_model_card (lang : Option String) (model : String) (now : String) : String :=
  card_body lang model ++ "Last updated " ++ now ++ "\n"

/-- Embedding of the `Model` namedtuple of `hugging_corenlp.py` (line 42). -/
structure Model where
  model_name : String
  lang : Option String
  local_name : String
  remote_name : Option String
  repo_name : Option String
deriving DecidableEq, Repr

/-- Embedding of the static `MODELS` catalog of `hugging_corenlp.py`
(lines 44-56). -/
def MODELS : List Model :=
  [⟨"CoreNLP", some "en", "stanford-corenlp-latest.zip", some "stanford-corenlp-latest.zip", some "CoreNLP"⟩,
   ⟨"arabic", some "ar", "stanford-arabic-corenlp-models-current.jar", none, none⟩,
   ⟨"chinese", some "zh", "stanford-chinese-corenlp-models-current.jar", none, none⟩,
   ⟨"english-default", some "en", "stanford-corenlp-models-current.jar", none, none⟩,
   ⟨"english-extra", some "en", "stanford-english-corenlp-models-current.jar", none, none⟩,
   ⟨"english-kbp", some "en", "stanford-english-kbp-corenlp-models-current.jar", none, none⟩,
   ⟨"french", some "fr", "stanford-french-corenlp-models-current.jar", none, none⟩,
   ⟨"german", some "de", "stanford-german-corenlp-models-current.jar", none, none⟩,
   ⟨"hungarian", some "hu", "stanford-hungarian-corenlp-models-current.jar", none, none⟩,
   ⟨"italian", some "it", "stanford-italian-corenlp-models-current.jar", none, none⟩,
   ⟨"spanish", some "es", "stanford-spanish-corenlp-models-current.jar", none, none⟩]

/-- State of one remote repository as `maybe_add_lfs` sees it: the lines of
the `.gitattributes` file and the number of commits that have touched it. -/
structure RepoState where
  gitattributes : List String
  commits : Nat
deriving DecidableEq, Repr

/-- The rule line appended by `maybe_add_lfs`:
`"%s filter=lfs diff=lfs merge=lfs -text\n" % extension` (line 86). -/
def lfsLine (extension : String) : String :=
  extension ++ " filter=lfs diff=lfs merge=lfs -text\n"

/-- The check on line 85 of `hugging_corenlp.py`:
`any(line.startswith(extension + " ") for line in lines)`. -/
def hasLfsRule (lines : List String) (extension : String) : Bool :=
  lines.any (fun line => strStartsWith line (extension ++ " "))

/-- Embedding of `maybe_add_lfs(api, repo_id, repo_local_path, extension)`
(lines 78-88): if no `.gitattributes` line starts with `extension + " "`,
append the LFS rule line and push one commit (`api.upload_file`);
otherwise do nothing. -/
def maybe_add_lfs (st : RepoState) (extension : String) : RepoState :=
  if hasLfsRule st.gitattributes extension then st
  else { gitattributes := st.gitattributes ++ [lfsLine extension],
         commits := st.commits + 1 }

/-- Tag state of one remote repository: the list of (tag name, commit)
pairs returned by `api.list_repo_refs`, and the current head commit that
`api.create_tag` would point a new tag at. -/
structure RepoTags where
  tags : List (String × Nat)
  head : Nat
deriving DecidableEq, Repr

/-- Model of the remote `api.delete_tag` call: deleting a tag that does
not exist is an error on the remote side; otherwise every tag of that
name is removed. -/
def delete_tag (tags : List (String × Nat)) (name : String) :
    Except String (List (String × Nat)) :=
  if tags.any (fun t => t.1 == name) then
    .ok (tags.filter (fun t => t.1 != name))
  else
    .error "tag not found"

/-- Model of the remote `api.create_tag` call: a tag of the given name is
created pointing at the current head. -/
def create_tag (st : RepoTags) (name : String) : RepoTags :=
  { st with tags := st.tags ++ [(name, st.head)] }

/-- Embedding of the tagging steps of `push_to_hub` (lines 151-160): list
the repository refs; if some tag carries the target name, delete that tag;
then create the tag pointing at the current head. -/
def retag (st : RepoTags) (name : String) : Except String RepoTags := do
  let tags1 ←
    if st.tags.any (fun t => t.1 == name) then delete_tag st.tags name
    else pure st.tags
  pure (create_tag { st with tags := tags1 } name)

/-- Python `os.path.join(input_dir, src)` when `input_dir` is set (truthy,
i.e. non-empty); an unset/empty `input_dir` is `none` and leaves the
path unchanged.  Paths are modelled as plain strings joined with `/`. -/
def applyRoot (input_dir : Option String) (src : String) : String :=
  match input_dir with
  | some d => d ++ "/" ++ src
  | none => src

/-- Embedding of the `src_candidates` list of `push_to_hub` (lines
122-126): the convention-based name, the alternate
`local_name`, then the version-qualified convention name, in this order. -/
def src_candidates (model_name : String) (local_name : String) (version : String) :
    List String :=
  ["stanford-corenlp-models-" ++ model_name ++ ".jar",
   local_name,
   "stanford-corenlp-" ++ version ++ "-models-" ++ model_name ++ ".jar"]

/-- The `for src in src_candidates` loop of `push_to_hub` (lines 127-131):
each candidate is replaced by `os.path.join(input_dir, src)` when
`input_dir` is set, and the first path that exists is returned. -/
def findSrc (fs : String → Bool) (input_dir : Option String) :
    List String → Option String
  | [] => none
  | c :: rest =>
    let src := applyRoot input_dir c
    if fs src then some src else findSrc fs input_dir rest

/-- Embedding of the resolution step of `push_to_hub` (lines 127-137): the
loop above, with the `else` branch raising `FileNotFoundError` carrying
`locations_searched`, the list of every candidate with the search root
applied. -/
def resolve_src (fs : String → Bool) (input_dir : Option String)
    (cands : List String) : Except (List String) String :=
  match findSrc fs input_dir cands with
  | some src => .ok src
  | none => .error (cands.map (applyRoot input_dir))

/-- Embedding of the `for model in stuff_to_push` loop of `push_to_hub`
(lines 100-163) restricted to what decides batch control flow: per model
the artifact is resolved; a `FileNotFoundError` (line 137) is not caught
anywhere, so it aborts the whole loop.  Remote operations (repo creation,
LFS rules, upload, retag) are modelled as succeeding.  The result is the
list of model names that completed (reached DONE), paired with the name of
the model whose resolution raised, if any. -/
def process_batch (fs : String → Bool) (input_dir : Option String)
    (version : String) : List Model → List String × Option String
  | [] => ([], none)
  | m :: rest =>
    match resolve_src fs input_dir (src_candidates m.model_name m.local_name version) with
    | .ok _ =>
      let r := process_batch fs input_dir version rest
      (m.model_name :: r.1, r.2)
    | .error _ => ([], some m.model_name)

end Corenlp

namespace Stanza

/-- Python `lang_text = f"{full_lang} ({lang})" if full_lang else lang`
from `hugging_stanza.py` (lines 22, 25), with
`full_lang = lcode2lang.get(lang, None)`. -/
def lang_text (lcode2lang : String → Option String) (lang : String) : String :=
  if pyTruthy (lcode2lang lang) then pyStr (lcode2lang lang) ++ " (" ++ lang ++ ")"
  else lang

/-- Python `short_lang = lang2lcode.get(lang, lang)` followed by
`short_lang = short_lang.split("-")[0]` (lines 23-24). -/
def short_lang (lang2lcode : String → Option String) (lang : String) : String :=
  splitDashHead (pyGetD lang2lcode lang lang)

/-- The fixed prose of the Stanza card template between the `{lang_text}`
and `{now}` format fields (lines 35-40 of `hugging_stanza.py`). -/
def stanzaProse : String :=
  "\nStanza is a collection of accurate and efficient tools for the linguistic analysis of many human languages. Starting from raw text to syntactic analysis and entity recognition, Stanza brings state-of-the-art NLP models to languages of your choosing.\nFind more about it in [our website](https://stanfordnlp.github.io/stanza) and our [GitHub repository](https://github.com/stanfordnlp/stanza).\n\nThis card and repo were automatically prepared with `hugging_stanza.py` in the `stanfordnlp/huggingface-models` repo\n\n"

/-- The Stanza card template up to (excluding) the trailing
`Last updated {now}` line, with the `{short_lang}` and `{lang_text}`
fields spliced in. -/
def card_body (lang2lcode lcode2lang : String → Option String)
    (lang : String) : String :=
  "---\ntags:\n- stanza\n- token-classification\nlibrary_name: stanza\nlanguage: " ++
  short_lang lang2lcode lang ++ "\nlicense: apache-2.0\n---\n" ++
  "# Stanza model for " ++ lang_text lcode2lang lang ++ stanzaProse

/-- Embedding of `get_model_card(lang)` from `hugging_stanza.py` (lines
20-42).  The maps `lcode2lang` and `lang2lcode` are imported by the script
from the external `stanza` package and are therefore parameters here; the
timestamp `now` stands for the `datetime.utcnow()` reading. -/
def get_model_card (lang2lcode lcode2lang : String → Option String)
    (lang : String) (now : String) : String :=
  card_body lang2lcode lcode2lang lang ++ "Last updated " ++ now ++ "\n"

end Stanza

/-! Theorems. -/

namespace Corenlp

/-- The candidate search loop is the first-match scan of Python: it returns
`List.find?` of the filesystem predicate over the root-applied candidates. -/
theorem findSrc_eq_find (fs : String → Bool) (d : Option String)
    (cands : List String) :
    findSrc fs d cands = (cands.map (applyRoot d)).find? fs := by
  induction cands with
  | nil => rfl
  | cons c rest ih =>
    simp only [findSrc, List.map_cons, List.find?_cons]
    by_cases h : fs (applyRoot d c)
    · simp [h]
    · simp only [Bool.not_eq_true] at h
      simp [h, ih]

/-- C4: the resolver tries the candidates in declared order — the
convention-based name, the alternate `local_name`, then the
version-qualified convention name — and returns the first candidate path
that exists on the filesystem. -/
theorem resolve_src_first_existing (fs : String → Bool) (d : Option String)
    (model_name local_name version : String) :
    (fs (applyRoot d ("stanford-corenlp-models-" ++ model_name ++ ".jar")) = true →
      resolve_src fs d (src_candidates model_name local_name version) =
        .ok (applyRoot d ("stanford-corenlp-models-" ++ model_name ++ ".jar"))) ∧
    (fs (applyRoot d ("stanford-corenlp-models-" ++ model_name ++ ".jar")) = false →
      fs (applyRoot d local_name) = true →
      resolve_src fs d (src_candidates model_name local_name version) =
        .ok (applyRoot d local_name)) ∧
    (fs (applyRoot d ("stanford-corenlp-models-" ++ model_name ++ ".jar")) = false →
      fs (applyRoot d local_name) = false →
      fs (applyRoot d ("stanford-corenlp-" ++ version ++ "-models-" ++ model_name ++ ".jar")) = true →
      resolve_src fs d (src_candidates model_name local_name version) =
        .ok (applyRoot d ("stanford-corenlp-" ++ version ++ "-models-" ++ model_name ++ ".jar"))) := by
  refine ⟨fun h1 => ?_, fun h1 h2 => ?_, fun h1 h2 h3 => ?_⟩
  · simp [resolve_src, findSrc, src_candidates, h1]
  · simp [resolve_src, findSrc, src_candidates, h1, h2]
  · simp [resolve_src, findSrc, src_candidates, h1, h2, h3]

/-- C4 witness: with only the second and third candidates present on
disk, the resolver returns the second (the alternate local name). -/
theorem resolve_src_first_existing_witness :
    resolve_src (fun s => s == "B" || s == "stanford-corenlp-1-models-x.jar") none
      (src_candidates "x" "B" "1") = .ok "B" :=
  (resolve_src_first_existing (fun s => s == "B" || s == "stanford-corenlp-1-models-x.jar")
    none "x" "B" "1").2.1 (by decide) (by decide)

/-- C6: when no candidate path exists on the filesystem, resolution fails
with an error carrying the full list of attempted paths: every candidate,
with the search root applied. -/
theorem resolve_src_not_found (fs : String → Bool) (d : Option String)
    (cands : List String)
    (h : ∀ c ∈ cands, fs (applyRoot d c) = false) :
    resolve_src fs d cands = .error (cands.map (applyRoot d)) := by
  have hfind : (cands.map (applyRoot d)).find? fs = none := by
    rw [List.find?_eq_none]
    intro x hx
    rw [List.mem_map] at hx
    obtain ⟨c, hc, rfl⟩ := hx
    simp [h c hc]
  simp [resolve_src, findSrc_eq_find, hfind]

/-- C6 witness: with an empty filesystem, resolution of the `arabic`
candidates of the arabic model under root `m` fails listing all three attempted
paths. -/
theorem resolve_src_not_found_witness :
    resolve_src (fun _ => false) (some "m")
        (src_candidates "arabic" "stanford-arabic-corenlp-models-current.jar" "4.5.4") =
      .error ["m/stanford-corenlp-models-arabic.jar",
              "m/stanford-arabic-corenlp-models-current.jar",
              "m/stanford-corenlp-4.5.4-models-arabic.jar"] :=
  resolve_src_not_found (fun _ => false) (some "m")
    (src_candidates "arabic" "stanford-arabic-corenlp-models-current.jar" "4.5.4")
    (by intro c _; rfl)

/-- C5 counterexample: the claim says that with `input_dir` set each
candidate is also tried relative to the current working directory as a
fallback.  Here the bare candidate `"a"` exists (relative to the current
working directory) but no `input_dir`-joined path does; the claim
predicts success with `"a"`, yet the code fails, never having tried the
bare path. -/
theorem resolve_src_no_cwd_fallback :
    ((fun s => s == "a") "a" = true) ∧
    resolve_src (fun s => s == "a") (some "m") (src_candidates "x" "a" "v") =
      .error ["m/stanford-corenlp-models-x.jar", "m/a", "m/stanford-corenlp-v-models-x.jar"] :=
  ⟨rfl, rfl⟩

/-- C5 amended: when `input_dir` is set, every candidate is tried only
relative to `input_dir`; the current working directory plays no role (bare
candidate paths are consulted only when `input_dir` is unset/empty). -/
theorem resolve_src_root_only (fs : String → Bool) (d : String)
    (cands : List String) :
    resolve_src fs (some d) cands =
      match (cands.map (fun c => d ++ "/" ++ c)).find? fs with
      | some p => .ok p
      | none => .error (cands.map (fun c => d ++ "/" ++ c)) := by
  have hmap : cands.map (applyRoot (some d)) = cands.map (fun c => d ++ "/" ++ c) := rfl
  rw [resolve_src, findSrc_eq_find, hmap]

/-- The appended LFS rule line splits as the watched pattern
`extension ++ " "` followed by the rest of the rule text. -/
theorem lfsLine_eq (e : String) :
    lfsLine e = (e ++ " ") ++ "filter=lfs diff=lfs merge=lfs -text\n" := by
  rw [lfsLine, String.append_assoc]
  rfl

/-- The rule line appended for an extension starts with
`extension ++ " "`, so the line-85 check recognises it. -/
theorem lfsLine_startsWith (e : String) :
    strStartsWith (lfsLine e) (e ++ " ") = true := by
  rw [strStartsWith, List.isPrefixOf_iff_prefix, lfsLine_eq, String.data_append]
  exact List.prefix_append _ _

/-- After appending the rule line for an extension, the `.gitattributes`
lines contain a rule for that extension. -/
theorem hasLfsRule_append (lines : List String) (e : String) :
    hasLfsRule (lines ++ [lfsLine e]) e = true := by
  unfold hasLfsRule
  rw [List.any_append]
  simp [lfsLine_startsWith]

/-- C2: if the `.gitattributes` file already holds a rule for the
extension, `maybe_add_lfs` performs no write; otherwise it appends
exactly one rule line and pushes exactly one commit.  Calling it twice
with the same extension equals calling it once (so at most one commit
ever results), and the rule file only grows, never shrinks. -/
theorem maybe_add_lfs_idempotent (st : RepoState) (e : String) :
    (hasLfsRule st.gitattributes e = true → maybe_add_lfs st e = st) ∧
    (hasLfsRule st.gitattributes e = false →
      (maybe_add_lfs st e).gitattributes = st.gitattributes ++ [lfsLine e] ∧
      (maybe_add_lfs st e).commits = st.commits + 1) ∧
    maybe_add_lfs (maybe_add_lfs st e) e = maybe_add_lfs st e ∧
    (maybe_add_lfs st e).commits ≤ st.commits + 1 ∧
    st.gitattributes <+: (maybe_add_lfs st e).gitattributes := by
  by_cases h : hasLfsRule st.gitattributes e
  · simp [maybe_add_lfs, h, Nat.le_succ]
  · simp only [Bool.not_eq_true] at h
    refine ⟨by simp [h], fun _ => ⟨by simp [maybe_add_lfs, h], by simp [maybe_add_lfs, h]⟩,
      ?_, by simp [maybe_add_lfs, h], ?_⟩
    · have h2 : maybe_add_lfs st e =
          ⟨st.gitattributes ++ [lfsLine e], st.commits + 1⟩ := by
        simp [maybe_add_lfs, h]
      rw [h2]
      simp [maybe_add_lfs, hasLfsRule_append]
    · simp [maybe_add_lfs, h]

/-- C2 witness: adding the `*.jar` rule to an empty rule file pushes one
commit, and running `maybe_add_lfs` a second time changes nothing. -/
theorem maybe_add_lfs_idempotent_witness :
    maybe_add_lfs (maybe_add_lfs ⟨[], 0⟩ "*.jar") "*.jar" =
      maybe_add_lfs ⟨[], 0⟩ "*.jar" ∧
    (maybe_add_lfs (⟨[], 0⟩ : RepoState) "*.jar").commits = 0 + 1 :=
  ⟨(maybe_add_lfs_idempotent ⟨[], 0⟩ "*.jar").2.2.1,
   ((maybe_add_lfs_idempotent ⟨[], 0⟩ "*.jar").2.1 rfl).2⟩

/-- Evaluation of `retag`: the existing tags of the target name (if any)
are removed and one tag of that name pointing at the current head is
appended; the call never fails. -/
theorem retag_eq (st : RepoTags) (name : String) :
    retag st name =
      .ok ⟨(if st.tags.any (fun t => t.1 == name) then
              st.tags.filter (fun t => t.1 != name)
            else st.tags) ++ [(name, st.head)], st.head⟩ := by
  by_cases h : st.tags.any (fun t => t.1 == name) <;>
    simp [retag, delete_tag, create_tag, h, pure, Except.pure, Bind.bind, Except.bind]

/-- C3: after `retag`, exactly one tag of the target name exists, it
points at the current (new) head, no tag of that name points anywhere
else, and tags of other names are untouched. -/
theorem retag_replaces (st : RepoTags) (name : String) :
    ∃ st2, retag st name = .ok st2 ∧
      st2.tags.filter (fun t => t.1 == name) = [(name, st.head)] ∧
      (∀ c, (name, c) ∈ st2.tags → c = st.head) ∧
      st2.tags.filter (fun t => t.1 != name) =
        st.tags.filter (fun t => t.1 != name) ∧
      st2.head = st.head := by
  by_cases h : st.tags.any (fun t => t.1 == name)
  · refine ⟨⟨st.tags.filter (fun t => t.1 != name) ++ [(name, st.head)], st.head⟩,
      ?_, ?_, ?_, ?_, rfl⟩
    · rw [retag_eq, if_pos h]
    · rw [List.filter_append, List.filter_filter]
      simp
    · intro c hc
      rcases List.mem_append.mp hc with hin | hin
      · have := List.of_mem_filter hin
        simp at this
      · exact congrArg Prod.snd (List.mem_singleton.mp hin)
    · rw [List.filter_append, List.filter_filter]
      simp
  · have hf : st.tags.any (fun t => t.1 == name) = false :=
      Bool.eq_false_iff.mpr h
    refine ⟨⟨st.tags ++ [(name, st.head)], st.head⟩, ?_, ?_, ?_, ?_, rfl⟩
    · rw [retag_eq, hf]
      rfl
    · rw [List.filter_append]
      have h1 : st.tags.filter (fun t => t.1 == name) = [] := by
        rw [List.filter_eq_nil_iff]
        intro t ht hcon
        exact h (List.any_eq_true.mpr ⟨t, ht, hcon⟩)
      rw [h1]
      simp
    · intro c hc
      rcases List.mem_append.mp hc with hin | hin
      · have hany : st.tags.any (fun t => t.1 == name) = true :=
          List.any_eq_true.mpr ⟨(name, c), hin, by simp⟩
        exact absurd hany h
      · exact congrArg Prod.snd (List.mem_singleton.mp hin)
    · rw [List.filter_append]
      simp

/-- C7: when the repository carries no tag of the target name, `retag`
skips the deletion, succeeds, and still creates the tag at the current
head. -/
theorem retag_missing_tag_succeeds (st : RepoTags) (name : String)
    (h : st.tags.any (fun t => t.1 == name) = false) :
    retag st name = .ok ⟨st.tags ++ [(name, st.head)], st.head⟩ := by
  rw [retag_eq, h]
  rfl

/-- C7 witness: retagging a repository that only has a `v1.0.0` tag with
the new name `v2.0.0` succeeds and appends the new tag at the head. -/
theorem retag_missing_tag_succeeds_witness :
    retag ⟨[("v1.0.0", 3)], 7⟩ "v2.0.0" =
      .ok ⟨[("v1.0.0", 3), ("v2.0.0", 7)], 7⟩ :=
  retag_missing_tag_succeeds ⟨[("v1.0.0", 3)], 7⟩ "v2.0.0" (by decide)

/-- C1 counterexample: with catalog `[french, klingon, german]` where the
`french` and `german` artifacts exist but no `klingon` candidate does,
the unhandled `FileNotFoundError` for `klingon` aborts the batch, so
`german` never reaches DONE — contradicting the claim that every
subsequent model still gets processed. -/
theorem process_batch_not_isolated :
    process_batch
        (fun s => s == "stanford-corenlp-models-french.jar" ||
          s == "stanford-corenlp-models-german.jar") none "4.5.4"
        [⟨"french", some "fr", "stanford-french-corenlp-models-current.jar", none, none⟩,
         ⟨"klingon", none, "stanford-klingon-corenlp-models-current.jar", none, none⟩,
         ⟨"german", some "de", "stanford-german-corenlp-models-current.jar", none, none⟩] =
      (["french"], some "klingon") ∧
    "german" ∉ (process_batch
        (fun s => s == "stanford-corenlp-models-french.jar" ||
          s == "stanford-corenlp-models-german.jar") none "4.5.4"
        [⟨"french", some "fr", "stanford-french-corenlp-models-current.jar", none, none⟩,
         ⟨"klingon", none, "stanford-klingon-corenlp-models-current.jar", none, none⟩,
         ⟨"german", some "de", "stanford-german-corenlp-models-current.jar", none, none⟩]).1 := by
  refine ⟨rfl, ?_⟩
  decide

/-- C1 amended: when artifact resolution fails for one model, the raised
`FileNotFoundError` halts the whole batch: the models before it (whose
resolution succeeds) reach DONE, the failing model is reported, and every
subsequent model is not processed at all.  There is no halt-on-failure
toggle in the code. -/
theorem process_batch_halts_on_missing (fs : String → Bool) (d : Option String)
    (v : String) (ms1 : List Model) (bad : Model) (ms2 : List Model)
    (h1 : ∀ m ∈ ms1,
      (findSrc fs d (src_candidates m.model_name m.local_name v)).isSome = true)
    (h2 : findSrc fs d (src_candidates bad.model_name bad.local_name v) = none) :
    process_batch fs d v (ms1 ++ bad :: ms2) =
      (ms1.map (fun m => m.model_name), some bad.model_name) := by
  induction ms1 with
  | nil =>
    simp only [List.nil_append, List.map_nil]
    simp [process_batch, resolve_src, h2]
  | cons m rest ih =>
    have hm := h1 m (by simp)
    obtain ⟨src, hsrc⟩ := Option.isSome_iff_exists.mp hm
    have hrest : ∀ m2 ∈ rest,
        (findSrc fs d (src_candidates m2.model_name m2.local_name v)).isSome = true :=
      fun m2 hm2 => h1 m2 (by simp [hm2])
    simp [process_batch, resolve_src, hsrc, ih hrest]

/-- C1 amended witness: with catalog `[italian, hungarian, spanish]` and
only the italian artifact present, the batch stops at `hungarian` with
only `italian` DONE. -/
theorem process_batch_halts_on_missing_witness :
    process_batch (fun s => s == "stanford-italian-corenlp-models-current.jar")
        none "4.5.4"
        [⟨"italian", some "it", "stanford-italian-corenlp-models-current.jar", none, none⟩,
         ⟨"hungarian", some "hu", "stanford-hungarian-corenlp-models-current.jar", none, none⟩,
         ⟨"spanish", some "es", "stanford-spanish-corenlp-models-current.jar", none, none⟩] =
      (["italian"], some "hungarian") := by
  have h := process_batch_halts_on_missing
    (fun s => s == "stanford-italian-corenlp-models-current.jar") none "4.5.4"
    [⟨"italian", some "it", "stanford-italian-corenlp-models-current.jar", none, none⟩]
    ⟨"hungarian", some "hu", "stanford-hungarian-corenlp-models-current.jar", none, none⟩
    [⟨"spanish", some "es", "stanford-spanish-corenlp-models-current.jar", none, none⟩]
    (by decide) (by decide)
  simpa using h

end Corenlp

/-- C8: for a fixed model name and language code, two renderings of the
model card (in either script) differ only in the trailing
`Last updated` timestamp line: they share the same body `p` (resp. `q`)
followed by `"Last updated " ++ timestamp ++ "\n"`. -/
theorem get_model_card_det_mod_timestamp (lang : Option String) (model : String)
    (l2l lc2l : String → Option String) (code t1 t2 : String) :
    (∃ p, Corenlp.get_model_card lang model t1 = p ++ ("Last updated " ++ t1 ++ "\n") ∧
          Corenlp.get_model_card lang model t2 = p ++ ("Last updated " ++ t2 ++ "\n")) ∧
    (∃ q, Stanza.get_model_card l2l lc2l code t1 = q ++ ("Last updated " ++ t1 ++ "\n") ∧
          Stanza.get_model_card l2l lc2l code t2 = q ++ ("Last updated " ++ t2 ++ "\n")) := by
  refine ⟨⟨Corenlp.card_body lang model, ?_, ?_⟩,
    ⟨Stanza.card_body l2l lc2l code, ?_, ?_⟩⟩ <;>
  simp [Corenlp.get_model_card, Stanza.get_model_card, String.append_assoc]

/-- C9 counterexample: with an absent language code the CoreNLP card does
not omit the `language:` metadata line; it renders the Python placeholder
`None` on that line. -/
theorem card_absent_lang_not_omitted :
    ∃ q, Corenlp.get_model_card none "CoreNLP" "2024-01-01 00:00:00.000" =
      "---\ntags:\n- corenlp\nlibrary_tag: corenlp\nlanguage: None\nlicense: gpl-2.0\n---\n" ++ q := by
  refine ⟨"# Core NLP model for " ++ ("CoreNLP" ++ (Corenlp.corenlpProse ++
    ("Last updated " ++ ("2024-01-01 00:00:00.000" ++ "\n")))), ?_⟩
  simp [Corenlp.get_model_card, Corenlp.card_body, pyStr, String.append_assoc]
  conv_rhs => rw [← String.append_assoc]
  simp
  conv_rhs => rw [← String.append_assoc]
  simp

/-- C9 amended: with an absent language code the generator still
succeeds, and the metadata block carries the line `language: None`
(how Python renders the absent value) instead of omitting the line. -/
theorem card_absent_lang_placeholder (model now : String) :
    ∃ q, Corenlp.get_model_card none model now =
      "---\ntags:\n- corenlp\nlibrary_tag: corenlp\nlanguage: None\nlicense: gpl-2.0\n---\n" ++ q := by
  refine ⟨"# Core NLP model for " ++ (model ++ (Corenlp.corenlpProse ++
    ("Last updated " ++ (now ++ "\n")))), ?_⟩
  simp [Corenlp.get_model_card, Corenlp.card_body, pyStr, String.append_assoc]
  conv_rhs => rw [← String.append_assoc]
  simp

/-- C10: the metadata of the Stanza card: `language:` field carries the input
code mapped through `lang2lcode` (with the code itself as default) and
truncated at its first dash, while the title line uses the untruncated
code, prefixed by the long-form name exactly when `lcode2lang` knows the
code; for a code such as `zh-hans` unknown to `lang2lcode` the field
becomes `zh`. -/
theorem stanza_card_fields (l2l lc2l : String → Option String) (lang now : String) :
    Stanza.get_model_card l2l lc2l lang now =
      "---\ntags:\n- stanza\n- token-classification\nlibrary_name: stanza\nlanguage: " ++
        Stanza.short_lang l2l lang ++ "\nlicense: apache-2.0\n---\n" ++
        "# Stanza model for " ++ Stanza.lang_text lc2l lang ++ Stanza.stanzaProse ++
        "Last updated " ++ now ++ "\n" ∧
    (Stanza.short_lang l2l lang).data <+: (pyGetD l2l lang lang).data ∧
    (∀ c ∈ (Stanza.short_lang l2l lang).data, c ≠ '-') ∧
    (∀ f, lc2l lang = some f → f ≠ "" →
      Stanza.lang_text lc2l lang = f ++ " (" ++ lang ++ ")") ∧
    (lc2l lang = none → Stanza.lang_text lc2l lang = lang) ∧
    (l2l "zh-hans" = none → splitDashHead (pyGetD l2l "zh-hans" "zh-hans") = "zh") := by
  refine ⟨rfl, ?_, ?_, ?_, ?_, ?_⟩
  · exact List.takeWhile_prefix _
  · intro c hc
    have := List.mem_takeWhile_imp hc
    simpa using this
  · intro f hf hne
    simp [Stanza.lang_text, hf, pyTruthy, pyStr, hne]
  · intro hnone
    simp [Stanza.lang_text, hnone, pyTruthy]
  · intro hnone
    simp [pyGetD, hnone]
    decide

/-- C10 witness: for the code `zh-hans`, unknown to both maps, the title
uses the untruncated code and the metadata field is truncated to `zh`. -/
theorem stanza_card_fields_witness :
    Stanza.lang_text (fun _ => none) "zh-hans" = "zh-hans" ∧
    splitDashHead (pyGetD (fun _ => none) "zh-hans" "zh-hans") = "zh" :=
  ⟨(stanza_card_fields (fun _ => none) (fun _ => none) "zh-hans" "t").2.2.2.2.1 rfl,
   (stanza_card_fields (fun _ => none) (fun _ => none) "zh-hans" "t").2.2.2.2.2 rfl⟩

end HFModels
